import Mathlib

/-!
# Verification of the image-converter service (`src/api/index.py`)

Shallow embedding of the FastAPI image-conversion service.  The service is a
thin façade over the Pillow codec library:

* `get_supported_formats` builds the format Compatibility Table at startup
  from Pillow's extension registry (`Image.registered_extensions()`,
  `Image.OPEN`, `Image.SAVE`, `features.check('webp')`);
* `get_supported_conversions` is the per-format lookup endpoint;
* `convert_image` is the conversion endpoint
  (decode → validate → flatten alpha → encode → size guard → respond).

Modelling decisions, each noted at the definition it concerns:

* Pillow is an external collaborator (the spec treats decode/encode as a
  black box), so its state is passed explicitly: the extension registry is a
  `PILEnv` value, the decoder's output is an `Option DecodedImage` argument,
  and the encoder is a function argument `encode : EncodeCall → Option (List Nat)`
  (`none` models the codec raising an exception).
* Python `set` iteration order is arbitrary (hash-dependent).  Every place
  the source iterates the `supported_formats` set is parameterised by a list
  `order` that enumerates the set exactly once (`order.Perm (supportedTokens env)`).
  A fixed CPython process iterates a fixed set in one fixed order, so the same
  `order` is used for the outer loop and the inner list comprehension.
* Python `dict`s are insertion-ordered association lists with unique keys
  (`Dict` below, updated only through `dictInsert`).
-/

set_option autoImplicit false

namespace ImgConverter

/-! ## Python string primitives -/

/-- Python `str.lower()` (ASCII, which is all the source ever lowers):
map `Char.toLower` over the characters. -/
def pyLower (s : String) : String :=
  String.mk (s.data.map Char.toLower)

/-- Python `str.upper()` (ASCII): map `Char.toUpper` over the characters. -/
def pyUpper (s : String) : String :=
  String.mk (s.data.map Char.toUpper)

/-- Python `s.replace('.', '')`: drop every `'.'` character. -/
def stripDots (s : String) : String :=
  String.mk (s.data.filter (fun c => c ≠ '.'))

/-- Python `filename.split('.')[-1]`: the last chunk of the filename split at
every dot (`String.splitOn` has exactly Python's splitting semantics for a
non-empty separator, and the split list is never empty). -/
def extToken (filename : String) : String :=
  (filename.splitOn ".").getLastD ""

/-! ## Python dicts of `str -> list[str]` -/

/-- A Python `dict[str, list[str]]`: insertion-ordered association list. -/
abbrev Dict : Type := List (String × List String)

/-- The key list of a dict (`dict.keys()`, in insertion order). -/
def dictKeys (m : Dict) : List String :=
  m.map Prod.fst

/-- Python `d[k] = v`: overwrite the entry if the key is present (keeping its
position), otherwise append a new entry. -/
def dictInsert (m : Dict) (k : String) (v : List String) : Dict :=
  if k ∈ dictKeys m then
    m.map (fun p => if p.1 = k then (k, v) else p)
  else
    m ++ [(k, v)]

/-- Python `d[k]` / `k in d`: the value at the first (unique) entry for `k`. -/
def dictLookup (m : Dict) (k : String) : Option (List String) :=
  match m with
  | [] => none
  | p :: rest => if k = p.1 then some p.2 else dictLookup rest k

/-! ## The Pillow environment -/

/-- The slice of Pillow state the service reads (out-of-scope collaborator in
the spec, hence explicit):
`registeredExtensions` is `Image.registered_extensions()` (extension with its
leading dot ↦ format name), `openFormats`/`saveFormats` are the keys of
`Image.OPEN`/`Image.SAVE`, and `webpFeature` is `features.check('webp')`. -/
structure PILEnv where
  registeredExtensions : List (String × String)
  openFormats : List String
  saveFormats : List String
  webpFeature : Bool

/-- The `supported_formats` set of `get_supported_formats` (lines 30-52 of the
source): lowercased extensions readable ∩ writable, dots stripped, minus the
excluded formats (`pdf`, `eps`, `wmf`, and `webp` when the webp feature is
absent).  Python sets are membership-only; `dedup` fixes one duplicate-free
enumeration, and iteration order is abstracted by `ValidOrder` below. -/
def supportedTokens (env : PILEnv) : List String :=
  let readable := (env.registeredExtensions.filter
    (fun p => p.2 ∈ env.openFormats)).map (fun p => pyLower p.1)
  let writable := (env.registeredExtensions.filter
    (fun p => p.2 ∈ env.saveFormats)).map (fun p => pyLower p.1)
  let inter := readable.filter (fun e => e ∈ writable)
  let noDots := inter.map stripDots
  let excluded := if env.webpFeature
    then ["pdf", "eps", "wmf"] else ["pdf", "eps", "wmf", "webp"]
  (noDots.filter (fun f => f ∉ excluded)).dedup

/-- A possible CPython iteration order of the `supported_formats` set:
any duplicate-free enumeration, i.e. any permutation of `supportedTokens`. -/
def ValidOrder (env : PILEnv) (order : List String) : Prop :=
  order.Perm (supportedTokens env)

/-! ## Compatibility-table construction (`get_supported_formats`) -/

/-- One iteration of the `for fmt in supported_formats` loop (lines 56-67):
`conversion_map[fmt] = [other for other in supported_formats if other != fmt]`,
then the special jpg/jpeg handling.  `full` is the enumeration of the whole
`supported_formats` set (the comprehension iterates the set each time, in the
same per-process order as the outer loop). -/
def buildStep (full : List String) (m : Dict) (fmt : String) : Dict :=
  let targets := full.filter (fun o => o ≠ fmt)
  let m1 := dictInsert m fmt targets
  if fmt = "jpeg" then dictInsert m1 "jpg" targets
  else if fmt = "jpg" then dictInsert m1 "jpeg" targets
  else m1

/-- The `conversion_map` after the main loop (lines 55-67), iterating the set
in the order `order`. -/
def buildConversionMap (order : List String) : Dict :=
  order.foldl (buildStep order) []

/-- The `format_aliases` dict of line 70 (insertion order of the literal). -/
def formatAliases : List (String × String) :=
  [("jpg", "jpeg"), ("jpeg", "jpg"), ("tif", "tiff"), ("tiff", "tif")]

/-- One iteration of the alias loop of lines 78-80, for the pair
`p = (alias, main_format)`:
`if main_format in conversion_map and alias not in conversion_map:
conversion_map[alias] = conversion_map[main_format]`. -/
def aliasStep (m : Dict) (p : String × String) : Dict :=
  match dictLookup m p.2 with
  | some v => if p.1 ∈ dictKeys m then m else dictInsert m p.1 v
  | none => m

/-- The alias loop of lines 78-80 over the `format_aliases` pairs. -/
def addAliases (m : Dict) : Dict :=
  formatAliases.foldl aliasStep m

/-- `get_supported_formats` (lines 24-85), with the set iteration order made
explicit.  The Pillow environment only enters through `order` (constrained by
`ValidOrder env order` in the theorems). -/
def get_supported_formats (order : List String) : Dict :=
  addAliases (buildConversionMap order)

/-- The `/supported-conversions/{format}` endpoint (lines 97-109): lowercase
the query, `400` on a missing key (the detail string lists the known keys),
otherwise return the stored target list. -/
def get_supported_conversions (table : Dict) (format : String) :
    Except (Nat × String) (List String) :=
  match dictLookup table (pyLower format) with
  | none => Except.error (400,
      "Unsupported input format: " ++ format ++
      ". Supported formats are: " ++ String.intercalate ", " (dictKeys table))
  | some v => Except.ok v

/-! ## The conversion pipeline (`convert_image`, lines 111-207) -/

/-- One pixel, as the RGBA channel values Pillow exposes (0-255 each). -/
structure Pixel where
  r : Nat
  g : Nat
  b : Nat
  a : Nat
deriving DecidableEq

/-- A decoded Pillow image (`Image.open` result): pixel mode (`"RGB"`,
`"RGBA"`, `"LA"`, ...), dimensions, the detected source format
(`Image.format`, `none` when Pillow did not record one), and the pixel data.
Pixels are viewed through their RGBA channels; for an `LA` image the `r`,
`g`, `b` channels all hold the luminance value, which is exactly what the
source's `convert('RGBA')` call at line 158 produces before the paste. -/
structure DecodedImage where
  mode : String
  width : Nat
  height : Nat
  format : Option String
  px : Nat → Nat → Pixel

/-- Alpha compositing of one channel onto an opaque background channel
(`background.paste(image, mask=alpha)` at line 159): the result is the
mask-weighted average of the pasted channel and the background channel. -/
def blendChannel (bg c a : Nat) : Nat :=
  (c * a + bg * (255 - a)) / 255

/-- Lines 156-160: `background = Image.new('RGB', input_image.size,
(255, 255, 255))`, convert `LA` to `RGBA`, then
`background.paste(input_image, mask=input_image.split()[3])`.  The result is
an `RGB` image of the exact same dimensions, every pixel composited onto
opaque white; the fresh image has no source format (`Image.new` sets none). -/
def flattenOntoWhite (img : DecodedImage) : DecodedImage :=
  { mode := "RGB"
    width := img.width
    height := img.height
    format := none
    px := fun x y =>
      let p := img.px x y
      { r := blendChannel 255 p.r p.a
        g := blendChannel 255 p.g p.a
        b := blendChannel 255 p.b p.a
        a := 255 } }

/-- Lines 153-160: flatten exactly when the decoded mode is `RGBA` or `LA`
and the (normalized) target format is `jpeg`; otherwise the image is passed
on untouched. -/
def adaptColorspace (img : DecodedImage) (target : String) : DecodedImage :=
  if (img.mode = "RGBA" ∨ img.mode = "LA") ∧ target = "jpeg"
  then flattenOntoWhite img
  else img

/-- The `save_kwargs` dict of lines 164-172, one optional field per keyword
that can be present: jpeg gets `quality=90, optimize=True`, png gets
`optimize=True`, webp gets `quality=90, method=6`, anything else gets no
keywords. -/
structure SaveOptions where
  quality : Option Nat
  optimize : Option Bool
  method : Option Nat
deriving DecidableEq

/-- Lines 164-172: build `save_kwargs` from the normalized target format. -/
def saveOptions (target : String) : SaveOptions :=
  if target = "jpeg" then { quality := some 90, optimize := some true, method := none }
  else if target = "png" then { quality := none, optimize := some true, method := none }
  else if target = "webp" then { quality := some 90, optimize := none, method := some 6 }
  else { quality := none, optimize := none, method := none }

/-- The full argument list of the `input_image.save` call at lines 174-178:
the (possibly flattened) image, `save_format = target_format.upper()`, and
the static keyword options. -/
structure EncodeCall where
  image : DecodedImage
  format : String
  options : SaveOptions

/-- The encoder invocation `convert_image` performs for a decoded image and a
normalized target format (lines 153-178 wrapped together). -/
def mkEncodeCall (img : DecodedImage) (target : String) : EncodeCall :=
  { image := adaptColorspace img target
    format := pyUpper target
    options := saveOptions target }

/-- What one request returns: either an `HTTPException`-style error
(status code and detail string) or the `StreamingResponse` of lines 192-200
(body bytes, `media_type`, and the literal header list). -/
inductive Response where
  | error (status : Nat) (detail : String)
  | streaming (body : List Nat) (mediaType : String) (headers : List (String × String))
deriving DecidableEq

/-- The `jpg → jpeg` alias normalization applied to both the resolved source
format and the target format (lines 133-134).  Note `tif` is *not* mapped. -/
def aliasNormalize (fmt : String) : String :=
  if fmt = "jpg" then "jpeg" else fmt

/-- Line 129: the resolved source format — the decoder's detected format,
lowercased, falling back to the lowercased last filename-extension chunk. -/
def resolveSourceFormat (detected : Option String) (filename : String) : String :=
  match detected with
  | some f => pyLower f
  | none => pyLower (extToken filename)

/-- `convert_image` (lines 111-207).  Pillow enters through two arguments:
`decoded` is the outcome of `Image.open` on the uploaded bytes (`none` when
the bytes are not a decodable image, in which case line 126 answers
`400 "Invalid image file"`), and `encode` is the `input_image.save` behaviour
(`none` when the codec raises; the raised message is summarised as the
constant detail `"Image conversion failed"`, its exact `str(e)` suffix being
codec text no claim depends on).

One behaviour needs care: the size guard at lines 185-189 raises
`HTTPException(status_code=400, ...)` *inside* the `try:` block whose
`except Exception` at line 202 catches every `Exception` — and FastAPI's
`HTTPException` is an `Exception` subclass.  The 400 is therefore swallowed
and re-raised as a 500 whose detail embeds `str(e)`; Starlette's
`HTTPException.__str__` renders as `"{status_code}: {detail}"`. -/
def convert_image (table : Dict) (decoded : Option DecodedImage)
    (filename : String) (target_format0 : String)
    (encode : EncodeCall → Option (List Nat)) : Response :=
  match decoded with
  | none => Response.error 400 "Invalid image file"
  | some img =>
    let original_format := aliasNormalize (resolveSourceFormat img.format filename)
    let target_format := aliasNormalize (pyLower target_format0)
    match dictLookup table original_format with
    | none => Response.error 400 ("Unsupported input format: " ++ original_format)
    | some targets =>
      if target_format ∈ targets then
        match encode (mkEncodeCall img target_format) with
        | none => Response.error 500 "Image conversion failed"
        | some bytes =>
          if bytes.length > 5 * 1024 * 1024 then
            Response.error 500
              "Image conversion failed: 400: Converted image exceeds size limit of 5MB"
          else
            Response.streaming bytes ("image/" ++ target_format)
              [("Content-Disposition", "attachment; filename=\"converted." ++ target_format ++ "\""),
               ("Content-Type", "image/" ++ target_format),
               ("Cache-Control", "max-age=3600")]
      else
        Response.error 400
          ("Unsupported conversion: " ++ original_format ++ " to " ++ target_format)

/-! ## The concrete Pillow registry -/

/-- Modelled from the spec: the codec library (Pillow) is an out-of-scope
external collaborator ("decode/encode treated as a black-box capability"), so
its extension registry is not in `src/`.  This is the fragment of Pillow's
documented registry relevant to the claims: Pillow registers *both* `.jpg`
and `.jpeg` for the JPEG plugin and *both* `.tif` and `.tiff` for the TIFF
plugin, all six canonical raster formats are readable and writable, `.pdf`
is write-only, and `ICO` stands in for the many further read+write formats
(ICO, PPM, PCX, TGA, ...) Pillow registers.  Standard wheels ship webp
support, so `webpFeature` is true. -/
def pillowEnv : PILEnv :=
  { registeredExtensions :=
      [(".bmp", "BMP"), (".gif", "GIF"), (".ico", "ICO"), (".jpg", "JPEG"),
       (".jpeg", "JPEG"), (".png", "PNG"), (".tif", "TIFF"), (".tiff", "TIFF"),
       (".webp", "WEBP"), (".pdf", "PDF")]
    openFormats := ["BMP", "GIF", "ICO", "JPEG", "PNG", "TIFF", "WEBP"]
    saveFormats := ["BMP", "GIF", "ICO", "JPEG", "PNG", "TIFF", "WEBP", "PDF"]
    webpFeature := true }

/-- The six canonical formats named by the spec. -/
def canonicalFormats : List String :=
  ["jpeg", "png", "webp", "tiff", "bmp", "gif"]

/-- The straightforward iteration order: the `supportedTokens` enumeration
itself (`jpeg` is visited after `jpg`). -/
def defaultOrder : List String :=
  supportedTokens pillowEnv

/-- Another admissible iteration order of the same set, visiting `jpg` last
(CPython set order is hash-dependent, so neither order is privileged). -/
def jpgLastOrder : List String :=
  ["bmp", "gif", "ico", "jpeg", "png", "tif", "tiff", "webp", "jpg"]

/-- The startup table `SUPPORTED_FORMATS` under the default iteration order. -/
def defaultTable : Dict :=
  get_supported_formats defaultOrder

/-- The startup table under the `jpg`-last iteration order. -/
def jpgLastTable : Dict :=
  get_supported_formats jpgLastOrder

/-- The last element of a list that is `"jpg"` or `"jpeg"`, if any. -/
def lastJJ : List String → Option String
  | [] => none
  | f :: rest =>
    match lastJJ rest with
    | some j => some j
    | none => if f = "jpg" ∨ f = "jpeg" then some f else none

/-! ## Concrete fixtures for witnesses and counterexamples -/

/-- A 1×1 fully-opaque RGB image decoded from a PNG. -/
def rgbPngImage : DecodedImage :=
  { mode := "RGB", width := 1, height := 1, format := some "PNG",
    px := fun _ _ => { r := 10, g := 20, b := 30, a := 255 } }

/-- A 2×1 RGBA image decoded from a PNG whose left pixel is fully
transparent. -/
def rgbaPngImage : DecodedImage :=
  { mode := "RGBA", width := 2, height := 1, format := some "PNG",
    px := fun x _ =>
      if x = 0 then { r := 10, g := 20, b := 30, a := 0 }
      else { r := 10, g := 20, b := 30, a := 255 } }

/-- A 1×1 RGB image decoded from a JPEG. -/
def jpegImage : DecodedImage :=
  { mode := "RGB", width := 1, height := 1, format := some "JPEG",
    px := fun _ _ => { r := 1, g := 2, b := 3, a := 255 } }

/-- A 1×1 RGB image decoded from a GIF. -/
def gifImage : DecodedImage :=
  { mode := "P", width := 1, height := 1, format := some "GIF",
    px := fun _ _ => { r := 0, g := 0, b := 0, a := 255 } }

/-- An encoder stub that always succeeds with a single byte. -/
def tinyEncoder : EncodeCall → Option (List Nat) := fun _ => some [0]

/-- An encoder stub whose output is 6 MiB, past the 5 MiB size limit. -/
def hugeEncoder : EncodeCall → Option (List Nat) :=
  fun _ => some (List.replicate (6 * 1024 * 1024) 0)

/-- A minimal table for exercising the conversion endpoint in isolation. -/
def tinyTable : Dict := [("png", ["jpeg", "webp"]), ("jpeg", ["png"])]

/-! ## Dictionary lemmas -/

@[simp] theorem dictKeys_nil : dictKeys [] = [] := rfl

@[simp] theorem dictKeys_cons (p : String × List String) (m : Dict) :
    dictKeys (p :: m) = p.1 :: dictKeys m := rfl

@[simp] theorem dictLookup_nil (k : String) : dictLookup [] k = none := rfl

@[simp] theorem dictLookup_cons (p : String × List String) (m : Dict) (k : String) :
    dictLookup (p :: m) k = if k = p.1 then some p.2 else dictLookup m k := rfl

theorem dictLookup_eq_none_iff (m : Dict) (k : String) :
    dictLookup m k = none ↔ k ∉ dictKeys m := by
  induction m with
  | nil => simp
  | cons p rest ih =>
    by_cases hk : k = p.1
    · simp [hk]
    · simp [hk, ih]

theorem dictLookup_map_replace_ne (m : Dict) (k : String) (v : List String)
    (x : String) (hx : x ≠ k) :
    dictLookup (m.map (fun p => if p.1 = k then (k, v) else p)) x = dictLookup m x := by
  induction m with
  | nil => rfl
  | cons p rest ih =>
    by_cases hp : p.1 = k
    · have hx' : x ≠ p.1 := fun h => hx (h.trans hp)
      simp [hp, hx, hx', ih]
    · simp [hp, ih]

theorem dictLookup_map_replace_self (m : Dict) (k : String) (v : List String)
    (hk : k ∈ dictKeys m) :
    dictLookup (m.map (fun p => if p.1 = k then (k, v) else p)) k = some v := by
  induction m with
  | nil => simp at hk
  | cons p rest ih =>
    by_cases hp : p.1 = k
    · simp [hp]
    · simp only [dictKeys_cons, List.mem_cons] at hk
      have hk' : k ∈ dictKeys rest := by
        rcases hk with h | h
        · exact absurd h.symm hp
        · exact h
      have hkp : k ≠ p.1 := fun h => hp h.symm
      simp [hp, hkp, ih hk']

theorem dictLookup_append_single (m : Dict) (k : String) (v : List String)
    (x : String) (hk : k ∉ dictKeys m) :
    dictLookup (m ++ [(k, v)]) x = if x = k then some v else dictLookup m x := by
  induction m with
  | nil => simp
  | cons p rest ih =>
    simp only [dictKeys_cons, List.mem_cons, not_or] at hk
    obtain ⟨hkp, hk'⟩ := hk
    by_cases hx : x = p.1
    · have hxk : x ≠ k := fun h => hkp (h.symm.trans hx)
      have hpk : p.1 ≠ k := fun h => hkp h.symm
      simp [List.cons_append, hx, hxk, hpk]
    · simp [List.cons_append, hx, ih hk']

theorem dictLookup_dictInsert (m : Dict) (k : String) (v : List String) (x : String) :
    dictLookup (dictInsert m k v) x = if x = k then some v else dictLookup m x := by
  unfold dictInsert
  by_cases hk : k ∈ dictKeys m
  · rw [if_pos hk]
    by_cases hx : x = k
    · subst hx
      rw [if_pos rfl, dictLookup_map_replace_self m x v hk]
    · rw [if_neg hx, dictLookup_map_replace_ne m k v x hx]
  · rw [if_neg hk, dictLookup_append_single m k v x hk]

/-! ## Characterizing the table construction

The main loop's two jpg/jpeg assignments (lines 63-67) make the final entries
of the keys `"jpg"` and `"jpeg"` depend on which of the two tokens the set
iteration visits *last*; everything else is order-independent.  `lastJJ`
extracts that last-visited jpeg-family token. -/

theorem lastJJ_eq_some (l : List String) (j : String) (h : lastJJ l = some j) :
    j ∈ l ∧ (j = "jpg" ∨ j = "jpeg") := by
  induction l with
  | nil => simp [lastJJ] at h
  | cons f rest ih =>
    cases hr : lastJJ rest with
    | some j0 =>
      rw [lastJJ, hr] at h
      have h2 : j0 = j := Option.some.inj h
      obtain ⟨h3, h4⟩ := ih (hr.trans (congrArg some h2))
      exact ⟨List.mem_cons_of_mem f h3, h2 ▸ h4⟩
    | none =>
      rw [lastJJ, hr] at h
      have h2 : (if f = "jpg" ∨ f = "jpeg" then some f else none) = some j := h
      by_cases hf : f = "jpg" ∨ f = "jpeg"
      · rw [if_pos hf] at h2
        have h3 : f = j := Option.some.inj h2
        exact ⟨h3 ▸ List.mem_cons_self f rest, h3 ▸ hf⟩
      · rw [if_neg hf] at h2
        exact absurd h2 (by simp)

theorem lastJJ_ne_none_of_mem (l : List String) (x : String)
    (hx : x ∈ l) (hjj : x = "jpg" ∨ x = "jpeg") : lastJJ l ≠ none := by
  induction l with
  | nil => simp at hx
  | cons f rest ih =>
    rw [lastJJ]
    cases hr : lastJJ rest with
    | some j0 => simp
    | none =>
      rcases List.mem_cons.mp hx with h | h
      · subst h
        simp [hjj]
      · exact absurd hr (ih h)

/-- What one `buildStep` does to a lookup. -/
theorem dictLookup_buildStep (full : List String) (m : Dict) (f k : String) :
    dictLookup (buildStep full m f) k =
      if f = "jpg" ∨ f = "jpeg" then
        (if k = "jpg" ∨ k = "jpeg"
         then some (full.filter (fun o => o ≠ f))
         else dictLookup m k)
      else
        (if k = f
         then some (full.filter (fun o => o ≠ f))
         else dictLookup m k) := by
  by_cases hf1 : f = "jpeg"
  · subst hf1
    by_cases hk1 : k = "jpg" <;> by_cases hk2 : k = "jpeg" <;>
      simp [buildStep, dictLookup_dictInsert, hk1, hk2]
  · by_cases hf2 : f = "jpg"
    · subst hf2
      by_cases hk1 : k = "jpg" <;> by_cases hk2 : k = "jpeg" <;>
        simp [buildStep, dictLookup_dictInsert, hk1, hk2]
    · by_cases hkf : k = f <;>
        simp [buildStep, dictLookup_dictInsert, hf1, hf2, hkf]

/-- Lookup characterization of the whole main loop, for an arbitrary
accumulator: a `"jpg"`/`"jpeg"` key ends at the targets of the last-visited
jpeg-family token; every other visited key `k` ends at
`full.filter (· ≠ k)`; unvisited keys keep their accumulator value. -/
theorem foldl_buildStep_lookup (full : List String) (rest : List String) :
    ∀ (m : Dict) (k : String),
      dictLookup (rest.foldl (buildStep full) m) k =
        if k = "jpg" ∨ k = "jpeg" then
          (match lastJJ rest with
           | some j => some (full.filter (fun o => o ≠ j))
           | none => dictLookup m k)
        else if k ∈ rest then some (full.filter (fun o => o ≠ k))
        else dictLookup m k := by
  induction rest with
  | nil =>
    intro m k
    by_cases hk : k = "jpg" ∨ k = "jpeg" <;> simp [lastJJ, hk]
  | cons f rest ih =>
    intro m k
    rw [List.foldl_cons, ih (buildStep full m f) k]
    by_cases hk : k = "jpg" ∨ k = "jpeg"
    · rw [if_pos hk, if_pos hk]
      cases hr : lastJJ rest with
      | some j => simp [lastJJ, hr]
      | none =>
        simp only [lastJJ, hr]
        rw [dictLookup_buildStep]
        by_cases hf : f = "jpg" ∨ f = "jpeg"
        · rw [if_pos hf, if_pos hk, if_pos hf]
        · have hkf : ¬ k = f := by
            rintro rfl
            exact hf hk
          rw [if_neg hf, if_neg hkf, if_neg hf]
    · rw [if_neg hk, if_neg hk]
      by_cases hkr : k ∈ rest
      · rw [if_pos hkr, if_pos (List.mem_cons_of_mem f hkr)]
      · rw [if_neg hkr, dictLookup_buildStep]
        by_cases hf : f = "jpg" ∨ f = "jpeg"
        · have hkf : ¬ k ∈ f :: rest := by
            intro h
            rcases List.mem_cons.mp h with h | h
            · subst h
              exact hk hf
            · exact hkr h
          rw [if_pos hf, if_neg hk, if_neg hkf]
        · by_cases hkf : k = f
          · subst hkf
            rw [if_neg hf, if_pos rfl, if_pos (List.mem_cons_self k rest)]
          · have hkf' : ¬ k ∈ f :: rest := by
              intro h
              rcases List.mem_cons.mp h with h | h
              · exact hkf h
              · exact hkr h
            rw [if_neg hf, if_neg hkf, if_neg hkf']

/-- Lookup characterization of `buildConversionMap`. -/
theorem buildConversionMap_lookup (order : List String) (k : String) :
    dictLookup (buildConversionMap order) k =
      if k = "jpg" ∨ k = "jpeg" then
        (match lastJJ order with
         | some j => some (order.filter (fun o => o ≠ j))
         | none => none)
      else if k ∈ order then some (order.filter (fun o => o ≠ k))
      else none := by
  rw [buildConversionMap, foldl_buildStep_lookup order order [] k]
  cases lastJJ order <;> simp

theorem mem_dictKeys_iff (m : Dict) (k : String) :
    k ∈ dictKeys m ↔ dictLookup m k ≠ none := by
  rw [Ne, dictLookup_eq_none_iff, not_not]

/-- A valid iteration order has the same members as the token set. -/
theorem ValidOrder.mem_iff_tokens {env : PILEnv} {order : List String}
    (h : ValidOrder env order) (x : String) :
    x ∈ order ↔ x ∈ supportedTokens env :=
  List.Perm.mem_iff h

theorem aliasStep_eq_self (m : Dict) (p : String × String) (h : p.1 ∈ dictKeys m) :
    aliasStep m p = m := by
  unfold aliasStep
  cases dictLookup m p.2 <;> simp [h]

/-- When all four alias tokens are already keys (which is the case whenever
both `.jpg`/`.jpeg` and `.tif`/`.tiff` extensions are registered, as in
Pillow), the alias loop changes nothing. -/
theorem addAliases_eq_self (m : Dict)
    (h1 : "jpg" ∈ dictKeys m) (h2 : "jpeg" ∈ dictKeys m)
    (h3 : "tif" ∈ dictKeys m) (h4 : "tiff" ∈ dictKeys m) :
    addAliases m = m := by
  show List.foldl aliasStep m formatAliases = m
  rw [formatAliases, List.foldl_cons, aliasStep_eq_self m ("jpg", "jpeg") h1,
    List.foldl_cons, aliasStep_eq_self m ("jpeg", "jpg") h2,
    List.foldl_cons, aliasStep_eq_self m ("tif", "tiff") h3,
    List.foldl_cons, aliasStep_eq_self m ("tiff", "tif") h4, List.foldl_nil]

/-- Under any admissible iteration order of the Pillow-supported set, the
alias loop is a no-op: all four alias tokens already ended up as keys of the
main loop's map. -/
theorem gsf_eq_build (order : List String) (h : ValidOrder pillowEnv order) :
    get_supported_formats order = buildConversionMap order := by
  have hjpg : "jpg" ∈ order := (h.mem_iff_tokens "jpg").mpr (by decide)
  have hlj : lastJJ order ≠ none :=
    lastJJ_ne_none_of_mem order "jpg" hjpg (Or.inl rfl)
  obtain ⟨j, hj⟩ := Option.ne_none_iff_exists'.mp hlj
  have kjj : ∀ x, (x = "jpg" ∨ x = "jpeg") →
      x ∈ dictKeys (buildConversionMap order) := by
    intro x hx
    rw [mem_dictKeys_iff, buildConversionMap_lookup, if_pos hx, hj]
    simp
  have knonjj : ∀ x, ¬(x = "jpg" ∨ x = "jpeg") → x ∈ order →
      x ∈ dictKeys (buildConversionMap order) := by
    intro x hx hxo
    rw [mem_dictKeys_iff, buildConversionMap_lookup, if_neg hx, if_pos hxo]
    simp
  unfold get_supported_formats
  exact addAliases_eq_self _ (kjj _ (Or.inl rfl)) (kjj _ (Or.inr rfl))
    (knonjj _ (by decide) ((h.mem_iff_tokens "tif").mpr (by decide)))
    (knonjj _ (by decide) ((h.mem_iff_tokens "tiff").mpr (by decide)))

/-- Lookup characterization of the startup table `SUPPORTED_FORMATS`, for any
admissible iteration order of the Pillow-supported set. -/
theorem gsf_lookup (order : List String) (h : ValidOrder pillowEnv order) (k : String) :
    dictLookup (get_supported_formats order) k =
      if k = "jpg" ∨ k = "jpeg" then
        (match lastJJ order with
         | some j => some (order.filter (fun o => o ≠ j))
         | none => none)
      else if k ∈ order then some (order.filter (fun o => o ≠ k))
      else none := by
  rw [gsf_eq_build order h, buildConversionMap_lookup]

theorem mem_filter_ne (l : List String) (x y : String) :
    x ∈ l.filter (fun o => o ≠ y) ↔ x ∈ l ∧ x ≠ y := by
  simp [List.mem_filter]

/-- The default enumeration is an admissible iteration order. -/
theorem defaultOrder_valid : ValidOrder pillowEnv defaultOrder :=
  List.Perm.refl _

/-- The `jpg`-last enumeration is an equally admissible iteration order. -/
theorem jpgLastOrder_valid : ValidOrder pillowEnv jpgLastOrder := by
  show jpgLastOrder.Perm (supportedTokens pillowEnv)
  decide

/-! ## Generic conversion-pipeline lemmas -/

/-- Successful encode whose output exceeds the 5 MiB limit: the handler's own
`HTTPException(400)` is swallowed by its catch-all `except` and surfaces as a
500 server error. -/
theorem convert_image_oversized (table : Dict) (img : DecodedImage)
    (filename target0 src tgt : String) (targets : List String) (bytes : List Nat)
    (encode : EncodeCall → Option (List Nat))
    (hsrc : src = aliasNormalize (resolveSourceFormat img.format filename))
    (htgt : tgt = aliasNormalize (pyLower target0))
    (hlk : dictLookup table src = some targets)
    (hmem : tgt ∈ targets)
    (henc : encode (mkEncodeCall img tgt) = some bytes)
    (hsize : bytes.length > 5 * 1024 * 1024) :
    convert_image table (some img) filename target0 encode =
      Response.error 500
        "Image conversion failed: 400: Converted image exceeds size limit of 5MB" := by
  subst hsrc htgt
  simp only [convert_image, hlk, henc]
  rw [if_pos hmem, if_pos hsize]

/-! ## Claims -/

/-- C8: every upload whose bytes are not a decodable image (the decoder
yields nothing) is answered at the decode step with the 400 client error
`"Invalid image file"` — never a 500 and never a crash, whatever the table,
filename, target format and encoder are. -/
theorem c8_undecodable_upload_is_client_error (table : Dict)
    (filename target0 : String) (encode : EncodeCall → Option (List Nat)) :
    convert_image table none filename target0 encode =
      Response.error 400 "Invalid image file" := rfl

/-- C6: the pipeline flattens the decoded image onto an opaque white
background of the image's exact dimensions exactly when the pixel mode has
alpha (`RGBA` or `LA`) and the normalized target is `jpeg`; in every other
case the image reaches the encoder unmodified.  Flattening keeps the
dimensions, produces mode `RGB`, and sends fully transparent pixels to
opaque white. -/
theorem c6_flatten_exactly_for_alpha_to_jpeg (img : DecodedImage) (target : String) :
    (((img.mode = "RGBA" ∨ img.mode = "LA") ∧ target = "jpeg") →
      adaptColorspace img target = flattenOntoWhite img) ∧
    (¬((img.mode = "RGBA" ∨ img.mode = "LA") ∧ target = "jpeg") →
      adaptColorspace img target = img) ∧
    (mkEncodeCall img target).image = adaptColorspace img target ∧
    (flattenOntoWhite img).width = img.width ∧
    (flattenOntoWhite img).height = img.height ∧
    (flattenOntoWhite img).mode = "RGB" ∧
    (∀ x y, (img.px x y).a = 0 →
      (flattenOntoWhite img).px x y = { r := 255, g := 255, b := 255, a := 255 }) := by
  refine ⟨fun h => ?_, fun h => ?_, rfl, rfl, rfl, rfl, fun x y ha => ?_⟩
  · rw [adaptColorspace, if_pos h]
  · rw [adaptColorspace, if_neg h]
  · simp [flattenOntoWhite, blendChannel, ha]

theorem c6_witness :
    adaptColorspace rgbaPngImage "jpeg" = flattenOntoWhite rgbaPngImage ∧
    (flattenOntoWhite rgbaPngImage).px 0 0 = { r := 255, g := 255, b := 255, a := 255 } :=
  ⟨(c6_flatten_exactly_for_alpha_to_jpeg rgbaPngImage "jpeg").1 ⟨Or.inl rfl, rfl⟩,
   (c6_flatten_exactly_for_alpha_to_jpeg rgbaPngImage "jpeg").2.2.2.2.2.2 0 0 rfl⟩

/-- C7: validation — an unknown resolved source format is answered with the
400 error naming it; a known source with a target outside its list is
answered with the 400 error naming both formats. -/
theorem c7_validation_errors (table : Dict) (img : DecodedImage)
    (filename target0 src tgt : String) (encode : EncodeCall → Option (List Nat))
    (hsrc : src = aliasNormalize (resolveSourceFormat img.format filename))
    (htgt : tgt = aliasNormalize (pyLower target0)) :
    (dictLookup table src = none →
      convert_image table (some img) filename target0 encode =
        Response.error 400 ("Unsupported input format: " ++ src)) ∧
    (∀ targets, dictLookup table src = some targets → tgt ∉ targets →
      convert_image table (some img) filename target0 encode =
        Response.error 400 ("Unsupported conversion: " ++ src ++ " to " ++ tgt)) := by
  subst hsrc htgt
  constructor
  · intro hnone
    simp only [convert_image]
    rw [hnone]
  · intro targets hsome hmem
    simp only [convert_image, hsome]
    rw [if_neg hmem]

theorem c7_witness :
    convert_image tinyTable (some gifImage) "x.gif" "png" tinyEncoder =
      Response.error 400 "Unsupported input format: gif" ∧
    convert_image tinyTable (some rgbPngImage) "a.png" "gif" tinyEncoder =
      Response.error 400 "Unsupported conversion: png to gif" :=
  ⟨(c7_validation_errors tinyTable gifImage "x.gif" "png" "gif" "png"
      tinyEncoder (by decide) (by decide)).1 (by decide),
   (c7_validation_errors tinyTable rgbPngImage "a.png" "gif" "png" "gif"
      tinyEncoder (by decide) (by decide)).2 ["jpeg", "webp"] (by decide) (by decide)⟩

/-- C9: every successful conversion answers with exactly the encoded bytes,
content type `image/<target>`, attachment filename `converted.<target>` and
`Cache-Control: max-age=3600`, where `<target>` is the normalized target
token. -/
theorem c9_success_response (table : Dict) (img : DecodedImage)
    (filename target0 src tgt : String) (targets : List String) (bytes : List Nat)
    (encode : EncodeCall → Option (List Nat))
    (hsrc : src = aliasNormalize (resolveSourceFormat img.format filename))
    (htgt : tgt = aliasNormalize (pyLower target0))
    (hlk : dictLookup table src = some targets)
    (hmem : tgt ∈ targets)
    (henc : encode (mkEncodeCall img tgt) = some bytes)
    (hsize : bytes.length ≤ 5 * 1024 * 1024) :
    convert_image table (some img) filename target0 encode =
      Response.streaming bytes ("image/" ++ tgt)
        [("Content-Disposition", "attachment; filename=\"converted." ++ tgt ++ "\""),
         ("Content-Type", "image/" ++ tgt),
         ("Cache-Control", "max-age=3600")] := by
  subst hsrc htgt
  simp only [convert_image, hlk, henc]
  rw [if_pos hmem, if_neg (by omega)]

theorem c9_witness :
    convert_image tinyTable (some rgbPngImage) "a.png" "jpeg" tinyEncoder =
      Response.streaming [0] "image/jpeg"
        [("Content-Disposition", "attachment; filename=\"converted.jpeg\""),
         ("Content-Type", "image/jpeg"),
         ("Cache-Control", "max-age=3600")] := by
  have h := c9_success_response tinyTable rgbPngImage "a.png" "jpeg" "png" "jpeg"
    ["jpeg", "webp"] [0] tinyEncoder (by decide) (by decide) (by decide) (by decide)
    rfl (by decide)
  exact h

/-! ## Table lookup helpers (any admissible Pillow iteration order) -/

theorem gsc_of_lookup (table : Dict) (format : String) (l : List String)
    (h : dictLookup table (pyLower format) = some l) :
    get_supported_conversions table format = Except.ok l := by
  unfold get_supported_conversions
  rw [h]

theorem lastJJ_exists (order : List String) (h : ValidOrder pillowEnv order) :
    ∃ j, lastJJ order = some j ∧ j ∈ order ∧ (j = "jpg" ∨ j = "jpeg") := by
  have hjpg : "jpg" ∈ order := (h.mem_iff_tokens "jpg").mpr (by decide)
  have hlj := lastJJ_ne_none_of_mem order "jpg" hjpg (Or.inl rfl)
  obtain ⟨j, hj⟩ := Option.ne_none_iff_exists'.mp hlj
  obtain ⟨h1, h2⟩ := lastJJ_eq_some order j hj
  exact ⟨j, hj, h1, h2⟩

theorem gsf_lookup_jj (order : List String) (h : ValidOrder pillowEnv order)
    (k : String) (hk : k = "jpg" ∨ k = "jpeg") (j : String)
    (hj : lastJJ order = some j) :
    dictLookup (get_supported_formats order) k =
      some (order.filter (fun o => o ≠ j)) := by
  rw [gsf_lookup order h, if_pos hk, hj]

theorem gsf_lookup_nonjj (order : List String) (h : ValidOrder pillowEnv order)
    (k : String) (hk : ¬(k = "jpg" ∨ k = "jpeg")) (hko : k ∈ order) :
    dictLookup (get_supported_formats order) k =
      some (order.filter (fun o => o ≠ k)) := by
  rw [gsf_lookup order h, if_neg hk, if_pos hko]

theorem gsf_lookup_none_of_not_mem (order : List String) (h : ValidOrder pillowEnv order)
    (k : String) (hk : ¬(k = "jpg" ∨ k = "jpeg")) (hko : k ∉ order) :
    dictLookup (get_supported_formats order) k = none := by
  rw [gsf_lookup order h, if_neg hk, if_neg hko]

theorem mem_keys_gsf (order : List String) (h : ValidOrder pillowEnv order)
    (t : String) (ht : t ∈ order) :
    t ∈ dictKeys (get_supported_formats order) := by
  rw [mem_dictKeys_iff]
  by_cases htjj : t = "jpg" ∨ t = "jpeg"
  · obtain ⟨j, hj, -, -⟩ := lastJJ_exists order h
    rw [gsf_lookup_jj order h t htjj j hj]
    simp
  · rw [gsf_lookup_nonjj order h t htjj ht]
    simp

theorem pyLower_fixed_of_supported (x : String)
    (hx : x ∈ supportedTokens pillowEnv) : pyLower x = x := by
  have hs : supportedTokens pillowEnv =
      ["bmp", "gif", "ico", "jpg", "jpeg", "png", "tif", "tiff", "webp"] := by decide
  rw [hs] at hx
  fin_cases hx <;> decide

theorem canonical_subset_supported :
    ∀ g ∈ canonicalFormats, g ∈ supportedTokens pillowEnv := by decide

theorem canonical_not_jpg : ∀ g ∈ canonicalFormats, g ≠ "jpg" := by decide

theorem gsc_nonjj (order : List String) (h : ValidOrder pillowEnv order)
    (f : String) (hfs : f ∈ supportedTokens pillowEnv)
    (hfjj : ¬(f = "jpg" ∨ f = "jpeg")) (hfl : pyLower f = f) :
    get_supported_conversions (get_supported_formats order) f =
      Except.ok (order.filter (fun o => o ≠ f)) := by
  apply gsc_of_lookup
  rw [hfl]
  exact gsf_lookup_nonjj order h f hfjj ((h.mem_iff_tokens f).mpr hfs)

theorem gsc_jpeg (order : List String) (h : ValidOrder pillowEnv order)
    (j : String) (hj : lastJJ order = some j) :
    get_supported_conversions (get_supported_formats order) "jpeg" =
      Except.ok (order.filter (fun o => o ≠ j)) := by
  apply gsc_of_lookup
  rw [show pyLower "jpeg" = "jpeg" from rfl]
  exact gsf_lookup_jj order h "jpeg" (Or.inr rfl) j hj

/-- C1: the claim's 400 never happens.  At a request whose encode result is
6 MiB, the handler's own `HTTPException(400, "Converted image exceeds size
limit of 5MB")` is caught by the `except Exception` of the same `try` block
and re-raised as a 500 server error (the claim is right that the converted
bytes are never returned: the response is an error, not a byte stream). -/
theorem c1_oversized_output_becomes_500 :
    convert_image tinyTable (some rgbPngImage) "a.png" "jpeg" hugeEncoder =
      Response.error 500
        "Image conversion failed: 400: Converted image exceeds size limit of 5MB" :=
  convert_image_oversized tinyTable rgbPngImage "a.png" "jpeg" "png" "jpeg"
    ["jpeg", "webp"] (List.replicate (6 * 1024 * 1024) 0) hugeEncoder
    (by decide) (by decide) (by decide) (by decide) rfl
    (by rw [List.length_replicate]; norm_num)

/-- C4 counterexample: with the startup table, a fixed decoded PNG upload and
a fixed encoder, requesting target `"tif"` does not produce the same response
as requesting `"tiff"`: `"tif"` is not alias-normalized (only `jpg → jpeg`
is), so the two runs answer with different content types and filenames. -/
theorem c4_counterexample :
    convert_image defaultTable (some rgbPngImage) "a.png" "tif" tinyEncoder ≠
      convert_image defaultTable (some rgbPngImage) "a.png" "tiff" tinyEncoder := by
  decide

/-- C4 amended: the `"jpg"` target behaves identically to `"jpeg"` for every
table, upload and encoder (both normalize to the same pipeline run), but the
`"tif"` target does not behave identically to `"tiff"`: the former is never
alias-normalized, so the responses differ. -/
theorem c4_jpg_alias_identical_tif_not :
    (∀ (table : Dict) (decoded : Option DecodedImage) (filename : String)
        (encode : EncodeCall → Option (List Nat)),
      convert_image table decoded filename "jpg" encode =
        convert_image table decoded filename "jpeg" encode) ∧
    convert_image defaultTable (some rgbPngImage) "a.png" "tif" tinyEncoder ≠
      convert_image defaultTable (some rgbPngImage) "a.png" "tiff" tinyEncoder := by
  constructor
  · intro table decoded filename encode
    cases decoded with
    | none => rfl
    | some img => rfl
  · decide

theorem c4_witness :
    convert_image tinyTable (some rgbPngImage) "a.png" "jpg" tinyEncoder =
      convert_image tinyTable (some rgbPngImage) "a.png" "jpeg" tinyEncoder :=
  c4_jpg_alias_identical_tif_not.1 tinyTable (some rgbPngImage) "a.png" tinyEncoder

/-- C2 counterexample: under the startup table, the supported-conversions
list of the canonical format `"png"` is not "exactly the other five canonical
formats": it also holds the alias token `"jpg"` and the extra Pillow format
`"ico"`, neither of which is canonical. -/
theorem c2_counterexample :
    ∃ l, get_supported_conversions defaultTable "png" = Except.ok l ∧
      "jpg" ∈ l ∧ "jpg" ∉ canonicalFormats ∧
      "ico" ∈ l ∧ "ico" ∉ canonicalFormats := by
  refine ⟨["bmp", "gif", "ico", "jpg", "jpeg", "tif", "tiff", "webp"],
    rfl, by decide, by decide, by decide, by decide⟩

/-- C2 amended: for every canonical format `f`, `listTargets(f)` contains the
other five canonical formats, but it is a strict superset of them: it also
contains non-canonical tokens such as `"ico"` and the alias token `"tif"`
(and this holds under every admissible set-iteration order). -/
theorem c2_targets_superset (order : List String) (h : ValidOrder pillowEnv order) :
    ∀ f ∈ canonicalFormats, ∃ l,
      get_supported_conversions (get_supported_formats order) f = Except.ok l ∧
      (∀ g ∈ canonicalFormats, g ≠ f → g ∈ l) ∧
      "ico" ∈ l ∧ "tif" ∈ l ∧ "ico" ∉ canonicalFormats ∧ "tif" ∉ canonicalFormats := by
  intro f hf
  by_cases hfjpeg : f = "jpeg"
  · subst hfjpeg
    obtain ⟨j, hj, hjmem, hjj⟩ := lastJJ_exists order h
    refine ⟨order.filter (fun o => o ≠ j), gsc_jpeg order h j hj,
      ?_, ?_, ?_, by decide, by decide⟩
    · intro g hg hgf
      rw [mem_filter_ne]
      refine ⟨(h.mem_iff_tokens g).mpr (canonical_subset_supported g hg), ?_⟩
      rcases hjj with rfl | rfl
      · exact canonical_not_jpg g hg
      · exact hgf
    · rw [mem_filter_ne]
      refine ⟨(h.mem_iff_tokens "ico").mpr (by decide), ?_⟩
      rcases hjj with rfl | rfl <;> decide
    · rw [mem_filter_ne]
      refine ⟨(h.mem_iff_tokens "tif").mpr (by decide), ?_⟩
      rcases hjj with rfl | rfl <;> decide
  · have hfs : f ∈ supportedTokens pillowEnv := canonical_subset_supported f hf
    have hfjj : ¬(f = "jpg" ∨ f = "jpeg") := by
      rintro (rfl | rfl)
      · exact canonical_not_jpg "jpg" hf rfl
      · exact hfjpeg rfl
    refine ⟨order.filter (fun o => o ≠ f),
      gsc_nonjj order h f hfs hfjj (pyLower_fixed_of_supported f hfs),
      ?_, ?_, ?_, by decide, by decide⟩
    · intro g hg hgf
      rw [mem_filter_ne]
      exact ⟨(h.mem_iff_tokens g).mpr (canonical_subset_supported g hg), hgf⟩
    · rw [mem_filter_ne]
      refine ⟨(h.mem_iff_tokens "ico").mpr (by decide), ?_⟩
      intro hif
      rw [← hif] at hf
      exact absurd hf (by decide)
    · rw [mem_filter_ne]
      refine ⟨(h.mem_iff_tokens "tif").mpr (by decide), ?_⟩
      intro hif
      rw [← hif] at hf
      exact absurd hf (by decide)

theorem c2_witness :
    ∃ l, get_supported_conversions (get_supported_formats defaultOrder) "png" =
        Except.ok l ∧
      (∀ g ∈ canonicalFormats, g ≠ "png" → g ∈ l) ∧
      "ico" ∈ l ∧ "tif" ∈ l ∧ "ico" ∉ canonicalFormats ∧ "tif" ∉ canonicalFormats :=
  c2_targets_superset defaultOrder (List.Perm.refl _) "png" (by decide)

/-- C3 counterexample: under the startup table the `"tif"` and `"tiff"` target
lists are not equal as sets — `"tiff"` is in the former but not in the latter
(the alias loop skips both tokens because each is already a key). -/
theorem c3_counterexample :
    ∃ l1 l2,
      get_supported_conversions defaultTable "tif" = Except.ok l1 ∧
      get_supported_conversions defaultTable "tiff" = Except.ok l2 ∧
      "tiff" ∈ l1 ∧ "tiff" ∉ l2 ∧ ¬(∀ x, x ∈ l1 ↔ x ∈ l2) := by
  refine ⟨["bmp", "gif", "ico", "jpg", "jpeg", "png", "tiff", "webp"],
    ["bmp", "gif", "ico", "jpg", "jpeg", "png", "tif", "webp"],
    rfl, rfl, by decide, by decide, ?_⟩
  intro hall
  exact absurd ((hall "tiff").mp (by decide)) (by decide)

/-- C3 amended: the `"jpg"` and `"jpeg"` table entries are identical (under
every admissible iteration order the special-case assignments leave both keys
pointing at the same list), but the `"tif"` and `"tiff"` entries differ as
sets: each contains the other token and not itself. -/
theorem c3_jpg_jpeg_equal_tif_tiff_not (order : List String)
    (h : ValidOrder pillowEnv order) :
    dictLookup (get_supported_formats order) "jpg" =
      dictLookup (get_supported_formats order) "jpeg" ∧
    ∃ l1 l2,
      get_supported_conversions (get_supported_formats order) "tif" = Except.ok l1 ∧
      get_supported_conversions (get_supported_formats order) "tiff" = Except.ok l2 ∧
      "tiff" ∈ l1 ∧ "tiff" ∉ l2 := by
  constructor
  · obtain ⟨j, hj, -, -⟩ := lastJJ_exists order h
    rw [gsf_lookup_jj order h "jpg" (Or.inl rfl) j hj,
      gsf_lookup_jj order h "jpeg" (Or.inr rfl) j hj]
  · refine ⟨order.filter (fun o => o ≠ "tif"), order.filter (fun o => o ≠ "tiff"),
      gsc_nonjj order h "tif" (by decide) (by decide) (by decide),
      gsc_nonjj order h "tiff" (by decide) (by decide) (by decide), ?_, ?_⟩
    · rw [mem_filter_ne]
      exact ⟨(h.mem_iff_tokens "tiff").mpr (by decide), by decide⟩
    · intro hm
      exact ((mem_filter_ne _ _ _).mp hm).2 rfl

theorem c3_witness :
    dictLookup (get_supported_formats defaultOrder) "jpg" =
      dictLookup (get_supported_formats defaultOrder) "jpeg" :=
  (c3_jpg_jpeg_equal_tif_tiff_not defaultOrder (List.Perm.refl _)).1

/-- C5 counterexample: the table does list a format as its own target — under
the default iteration order the key `"jpg"` contains `"jpg"` — and under the
(equally admissible) `jpg`-last order, the identity request `jpeg → jpeg` is
*accepted* and answered with a converted stream instead of an
`UnsupportedConversionError`. -/
theorem c5_counterexample :
    (∃ l, dictLookup defaultTable "jpg" = some l ∧ "jpg" ∈ l) ∧
    convert_image jpgLastTable (some jpegImage) "a.jpeg" "jpeg" tinyEncoder =
      Response.streaming [0] "image/jpeg"
        [("Content-Disposition", "attachment; filename=\"converted.jpeg\""),
         ("Content-Type", "image/jpeg"),
         ("Cache-Control", "max-age=3600")] := by
  constructor
  · exact ⟨["bmp", "gif", "ico", "jpg", "png", "tif", "tiff", "webp"],
      by decide, by decide⟩
  · decide

/-- C5 amended: every key other than the `"jpg"`/`"jpeg"` pair omits itself
from its target list, and the identity conversion `bmp → bmp` is rejected
with the `UnsupportedConversionError` message naming both sides — but under
every admissible iteration order one of `"jpg"`/`"jpeg"` does list itself, so
the claimed invariant "no format lists itself" is false. -/
theorem c5_no_self_except_jpeg_family (order : List String)
    (h : ValidOrder pillowEnv order) :
    (∀ k l, k ≠ "jpg" → k ≠ "jpeg" →
      dictLookup (get_supported_formats order) k = some l → k ∉ l) ∧
    (∃ k l, (k = "jpg" ∨ k = "jpeg") ∧
      dictLookup (get_supported_formats order) k = some l ∧ k ∈ l) ∧
    (∀ (img : DecodedImage) (filename : String)
        (encode : EncodeCall → Option (List Nat)),
      img.format = some "BMP" →
      convert_image (get_supported_formats order) (some img) filename "bmp" encode =
        Response.error 400 "Unsupported conversion: bmp to bmp") := by
  refine ⟨?_, ?_, ?_⟩
  · intro k l hk1 hk2 hlk
    have hkjj : ¬(k = "jpg" ∨ k = "jpeg") := by
      rintro (rfl | rfl)
      · exact hk1 rfl
      · exact hk2 rfl
    by_cases hko : k ∈ order
    · rw [gsf_lookup_nonjj order h k hkjj hko] at hlk
      rw [← Option.some.inj hlk]
      intro hm
      exact ((mem_filter_ne _ _ _).mp hm).2 rfl
    · rw [gsf_lookup_none_of_not_mem order h k hkjj hko] at hlk
      exact absurd hlk (by simp)
  · obtain ⟨j, hj, hjmem, hjj⟩ := lastJJ_exists order h
    have hjpg : "jpg" ∈ order := (h.mem_iff_tokens "jpg").mpr (by decide)
    have hjpeg : "jpeg" ∈ order := (h.mem_iff_tokens "jpeg").mpr (by decide)
    refine ⟨if j = "jpg" then "jpeg" else "jpg",
      order.filter (fun o => o ≠ j), ?_, ?_, ?_⟩
    · rcases hjj with rfl | rfl <;> decide
    · rcases hjj with rfl | rfl
      · exact gsf_lookup_jj order h _ (by decide) _ hj
      · exact gsf_lookup_jj order h _ (by decide) _ hj
    · rw [mem_filter_ne]
      rcases hjj with rfl | rfl
      · exact ⟨hjpeg, by decide⟩
      · exact ⟨hjpg, by decide⟩
  · intro img filename encode hfmt
    have hbmp : "bmp" ∈ order := (h.mem_iff_tokens "bmp").mpr (by decide)
    have hlk : dictLookup (get_supported_formats order) "bmp" =
        some (order.filter (fun o => o ≠ "bmp")) :=
      gsf_lookup_nonjj order h "bmp" (by decide) hbmp
    have hnm : ¬("bmp" ∈ order.filter (fun o => o ≠ "bmp")) := fun hm =>
      ((mem_filter_ne _ _ _).mp hm).2 rfl
    simp only [convert_image, hfmt]
    rw [show aliasNormalize (resolveSourceFormat (some "BMP") filename) = "bmp" from rfl]
    rw [show aliasNormalize (pyLower "bmp") = "bmp" from rfl]
    simp only [hlk]
    rw [if_neg hnm]
    decide

theorem c5_witness :
    ∃ k l, (k = "jpg" ∨ k = "jpeg") ∧
      dictLookup (get_supported_formats defaultOrder) k = some l ∧ k ∈ l :=
  (c5_no_self_except_jpeg_family defaultOrder (List.Perm.refl _)).2.1

/-- C10: under every admissible iteration order the startup table is closed
and normalized — every token in any target list is itself a key, every key
and target token is its own lowercasing, and `get_supported_conversions`
succeeds on every key and on every target token of the table. -/
theorem c10_table_closed_normalized (order : List String)
    (h : ValidOrder pillowEnv order) :
    (∀ k l, dictLookup (get_supported_formats order) k = some l →
      ∀ t ∈ l, t ∈ dictKeys (get_supported_formats order)) ∧
    (∀ k ∈ dictKeys (get_supported_formats order), pyLower k = k) ∧
    (∀ k l, dictLookup (get_supported_formats order) k = some l →
      ∀ t ∈ l, pyLower t = t) ∧
    (∀ k ∈ dictKeys (get_supported_formats order),
      ∃ v, get_supported_conversions (get_supported_formats order) k = Except.ok v) ∧
    (∀ k l, dictLookup (get_supported_formats order) k = some l →
      ∀ t ∈ l, ∃ v,
        get_supported_conversions (get_supported_formats order) t = Except.ok v) := by
  have hsub : ∀ k l, dictLookup (get_supported_formats order) k = some l →
      ∀ t ∈ l, t ∈ order := by
    intro k l hlk t ht
    by_cases hkjj : k = "jpg" ∨ k = "jpeg"
    · obtain ⟨j, hj, -, -⟩ := lastJJ_exists order h
      rw [gsf_lookup_jj order h k hkjj j hj] at hlk
      rw [← Option.some.inj hlk] at ht
      exact ((mem_filter_ne _ _ _).mp ht).1
    · by_cases hko : k ∈ order
      · rw [gsf_lookup_nonjj order h k hkjj hko] at hlk
        rw [← Option.some.inj hlk] at ht
        exact ((mem_filter_ne _ _ _).mp ht).1
      · rw [gsf_lookup_none_of_not_mem order h k hkjj hko] at hlk
        exact absurd hlk (by simp)
  have hkeys : ∀ k, k ∈ dictKeys (get_supported_formats order) →
      pyLower k = k ∧ dictLookup (get_supported_formats order) k ≠ none := by
    intro k hk
    rw [mem_dictKeys_iff] at hk
    by_cases hkjj : k = "jpg" ∨ k = "jpeg"
    · constructor
      · rcases hkjj with rfl | rfl <;> decide
      · exact hk
    · have hko : k ∈ order := by
        by_contra hko
        exact hk (gsf_lookup_none_of_not_mem order h k hkjj hko)
      exact ⟨pyLower_fixed_of_supported k ((h.mem_iff_tokens k).mp hko), hk⟩
  have hgsc : ∀ k, k ∈ dictKeys (get_supported_formats order) →
      ∃ v, get_supported_conversions (get_supported_formats order) k = Except.ok v := by
    intro k hk
    obtain ⟨hlow, hne⟩ := hkeys k hk
    obtain ⟨v, hv⟩ := Option.ne_none_iff_exists'.mp hne
    refine ⟨v, gsc_of_lookup _ _ _ ?_⟩
    rw [hlow]
    exact hv
  refine ⟨?_, ?_, ?_, ?_, ?_⟩
  · intro k l hlk t ht
    exact mem_keys_gsf order h t (hsub k l hlk t ht)
  · intro k hk
    exact (hkeys k hk).1
  · intro k l hlk t ht
    exact pyLower_fixed_of_supported t ((h.mem_iff_tokens t).mp (hsub k l hlk t ht))
  · exact hgsc
  · intro k l hlk t ht
    exact hgsc t (mem_keys_gsf order h t (hsub k l hlk t ht))

theorem c10_witness :
    ∃ v, get_supported_conversions (get_supported_formats defaultOrder) "webp" =
      Except.ok v :=
  (c10_table_closed_normalized defaultOrder
    (List.Perm.refl _)).2.2.2.1 "webp" (by decide)

end ImgConverter
